import Mathlib

/-!
# QMLContextProperty

A shallow embedding of `src/cppworker.hpp`, `src/cppworker.cpp` and `src/main.cpp`.

* `QString` values are sequences of UTF-16 code units.
* Member functions of `CppWorker` are state-passing functions: they receive the
  receiver object and the diagnostic log and return the value, the receiver and
  the log after the call.
* `main` runs against an environment (`Env`): the wall clock at start-up, the
  QML modules that can be instantiated, and the events that reach the
  application while its event loop runs.
-/

namespace ContextProperty

/-! ## Strings -/

/-- A `QString`: a sequence of UTF-16 code units, each given by its number. -/
abbrev QString := List Nat

/-- The `QString` a C string literal converts to. -/
def QString.fromLiteral (s : String) : QString :=
  s.toList.map Char.toNat

/-- Modelled from the spec: the digit loop of `QString::number`, Qt library code that is
not under src/. The least significant digit is produced first and stored in front of the
digits produced so far; the loop stops when the quotient reaches zero. The code unit of
the digit `d` is `'0' + d`, that is `48 + d`. -/
def QString.numberLoop : Nat → Nat → QString → QString
  | 0, _, acc => acc
  | fuel + 1, n, acc =>
    let acc' := (48 + n % 10) :: acc
    if n / 10 = 0 then acc' else QString.numberLoop fuel (n / 10) acc'

/-- Modelled from the spec: `QString::number(int)` (Qt library code, not under src/), the
base-10 rendering of an `int` with no leading zeros: a minus sign (code unit 45) for a
negative number, then the digits of the absolute value. -/
def QString.number (n : Int) : QString :=
  if n < 0 then 45 :: QString.numberLoop (n.natAbs + 1) n.natAbs []
  else QString.numberLoop (n.natAbs + 1) n.natAbs []

/-! ## The diagnostic log -/

/-- One value streamed into a `qDebug()` statement. -/
inductive DebugItem where
  | literal (s : String)
  | qstring (s : QString)
  | integer (n : Int)
  deriving DecidableEq, Repr

/-- The message one `qDebug()` statement emits: the values streamed into it, in order. -/
abbrev DebugMessage := List DebugItem

/-- A `qDebug() << ...` statement: one message is appended to the log. -/
def qDebug (log : List DebugMessage) (msg : DebugMessage) : List DebugMessage :=
  log ++ [msg]

/-! ## `CppWorker` (cppworker.hpp, cppworker.cpp) -/

/-- The objects `main` passes to the framework by address. -/
inductive ObjectId where
  | app
  | engine
  | cppWorker
  deriving DecidableEq, Repr

/-- The class `CppWorker : public QObject`: it declares no data member, so an object
consists of its `QObject` base, of which the constructor sets the parent. -/
structure CppWorker where
  parent : Option ObjectId
  deriving DecidableEq, Repr

/-- The outcome of a call of a member function: the returned value, the receiver after
the call and the log after the call. -/
structure Call (α : Type) where
  ret : α
  self : CppWorker
  log : List DebugMessage

/-- The constructor `CppWorker::CppWorker(QObject *po_object)` (cppworker.cpp line 4). -/
def CppWorker.ctor (po_object : Option ObjectId) : CppWorker :=
  { parent := po_object }

/-- The member function `void CppWorker::regularMethod()` (cppworker.cpp lines 6 to 8). -/
def CppWorker.regularMethod (self : CppWorker) (log : List DebugMessage) : Call Unit :=
  { ret := (),
    self := self,
    log := qDebug log [.literal "This is the C++ talking, regularMethod called !"] }

/-- The member function
`QString CppWorker::regularMethodWithReturn(const QString &name, int age)`
(cppworker.cpp lines 10 to 13). -/
def CppWorker.regularMethodWithReturn (self : CppWorker) (log : List DebugMessage)
    (name : QString) (age : Int) : Call QString :=
  { ret := name ++ QString.fromLiteral ": " ++ QString.number age
      ++ QString.fromLiteral " years old !",
    self := self,
    log := qDebug log
      [.literal "This is the C++ talking, regularMethodWithReturn with name: ",
       .qstring name, .literal " and age: ", .integer age] }

/-- The slot `void CppWorker::cppSlot()` (cppworker.cpp lines 15 to 17). -/
def CppWorker.cppSlot (self : CppWorker) (log : List DebugMessage) : Call Unit :=
  { ret := (),
    self := self,
    log := qDebug log [.literal "This is C++ talking, cppSlot called !"] }

/-! ## Reading a rendered number back -/

/-- The code units `'0'` to `'9'`. -/
def isDigit (c : Nat) : Prop := 48 ≤ c ∧ c ≤ 57

instance (c : Nat) : Decidable (isDigit c) := by
  unfold isDigit; infer_instance

/-- The value of a decimal digit, `none` for any other code unit. -/
def digitValue (c : Nat) : Option Nat :=
  if 48 ≤ c ∧ c ≤ 57 then some (c - 48) else none

/-- Reads a run of decimal digits, most significant first, onto the value `v` read so far;
`none` as soon as a code unit is not a digit. -/
def parseDigits : QString → Nat → Option Nat
  | [], v => some v
  | c :: cs, v =>
    match digitValue c with
    | some d => parseDigits cs (10 * v + d)
    | none => none

/-- Reads a non-empty run of decimal digits as a natural number. -/
def parseNat : QString → Option Nat
  | [] => none
  | c :: cs => parseDigits (c :: cs) 0

/-- Reads a decimal integer: an optional leading minus sign (code unit 45), then a
non-empty run of digits. -/
def parseInt : QString → Option Int
  | [] => none
  | c :: cs =>
    if c = 45 then
      match parseNat cs with
      | some v => some (-(Int.ofNat v))
      | none => none
    else
      match parseNat (c :: cs) with
      | some v => some (Int.ofNat v)
      | none => none

/-! ## The framework state `main` works on (main.cpp)

The Qt classes `main` uses are library code that is not under src/. Their part in this
program is modelled from the spec and from the documented behaviour of the classes, as
operations on one state record: the root context's properties, the signal connections, the
queue of posted slot invocations, the event loop's exit flag and return code, the clock, the
diagnostic log, and a trace of the calls made, in order. -/

/-- A `QDateTime`, in milliseconds since the epoch. -/
abbrev QDateTime := Nat

/-- The `QVariant` values this program stores in the root context. -/
inductive QVariant where
  | object (o : ObjectId)
  | dateTime (t : QDateTime)
  deriving DecidableEq, Repr

/-- The enumeration `Qt::ConnectionType`. -/
inductive ConnectionType where
  | AutoConnection
  | DirectConnection
  | QueuedConnection
  deriving DecidableEq, Repr

/-- The signals of `QQmlApplicationEngine` that report the outcome of a load. -/
inductive Signal where
  | objectCreated
  | objectCreationFailed
  deriving DecidableEq, Repr

/-- The callables connected to a signal. The program has one: the lambda
`[]() { QCoreApplication::exit(-1); }` of main.cpp line 22. -/
inductive Slot where
  | exitLambda
  deriving DecidableEq, Repr

/-- One `QObject::connect(sender, signal, context, functor, type)`. -/
structure Connection where
  sender : ObjectId
  signal : Signal
  context : ObjectId
  slot : Slot
  type : ConnectionType
  deriving DecidableEq, Repr

/-- The calls recorded in the trace. -/
inductive Action where
  | constructApp
  | constructEngine
  | constructWorker
  | setContextProperty (name : String) (value : QVariant)
  | connect (c : Connection)
  | loadFromModule (uri typeName : String)
  | emitSignal (s : Signal)
  | exec
  | invoke (s : Slot)
  | exit (returnCode : Int)
  deriving DecidableEq, Repr

/-- A call the UI makes on the object published as `cppWorker`. -/
inductive WorkerCall where
  | regularMethod
  | regularMethodWithReturn (name : QString) (age : Int)
  | cppSlot
  deriving DecidableEq, Repr

/-- What reaches the application while its event loop runs. -/
inductive UiEvent where
  | call (c : WorkerCall)
  | elapse (ms : Nat)
  | quit
  | exit (returnCode : Int)
  deriving DecidableEq, Repr

/-- The state of the process. -/
structure AppState where
  now : QDateTime
  clockReads : Nat
  worker : Option CppWorker
  context : List (String × QVariant)
  connections : List Connection
  rootObjects : List (String × String)
  posted : List Slot
  inExec : Bool
  returnCode : Option Int
  log : List DebugMessage
  replies : List QString
  trace : List Action
  deriving DecidableEq, Repr

/-- What a run of `main` depends on and the program does not decide: the wall clock at
start-up, which QML types can be instantiated, the calls the root object makes on the
worker while it is created (the QML file is not part of the sources), and the events that
arrive while the event loop runs. -/
structure Env where
  startTime : QDateTime
  canCreate : String → String → Bool
  onLoad : List WorkerCall
  events : List UiEvent

/-- The state `main` starts in. -/
def AppState.initial (env : Env) : AppState :=
  { now := env.startTime, clockReads := 0, worker := none, context := [],
    connections := [], rootObjects := [], posted := [], inExec := false,
    returnCode := none, log := [], replies := [], trace := [] }

/-- Appends a call to the trace. -/
def record (a : Action) (st : AppState) : AppState :=
  { st with trace := st.trace ++ [a] }

/-- Line 10 of `main`: `QGuiApplication app(argc, argv);` -/
def QGuiApplication.ctor (st : AppState) : AppState :=
  record .constructApp st

/-- Line 11 of `main`: `QQmlApplicationEngine engine;` -/
def QQmlApplicationEngine.ctor (st : AppState) : AppState :=
  record .constructEngine st

/-- Line 14 of `main`: `CppWorker cppWorker{};`, with the default argument
`po_object = nullptr`. -/
def constructWorker (st : AppState) : AppState :=
  record .constructWorker { st with worker := some (CppWorker.ctor none) }

/-- Modelled from the spec: `QQmlContext::setContextProperty` (Qt library code, not under
src/) sets the property, replacing a value already
published under the same name. -/
def QQmlContext.setContextProperty (name : String) (value : QVariant) (st : AppState) :
    AppState :=
  record (.setContextProperty name value)
    { st with context := (name, value) :: st.context.filter (fun p => p.1 != name) }

/-- Modelled from the spec: `QQmlContext::contextProperty` (Qt library code, not under
src/) gives the value published under a name. -/
def QQmlContext.contextProperty (name : String) (st : AppState) : Option QVariant :=
  st.context.lookup name

/-- Modelled from the spec: `QDateTime::currentDateTime()` (Qt library code, not under
src/) is one reading of the clock. -/
def QDateTime.currentDateTime (st : AppState) : QDateTime × AppState :=
  (st.now, { st with clockReads := st.clockReads + 1 })

/-- Modelled from the spec: `QObject::connect` (Qt library code, not under src/) adds the
connection after the existing ones. -/
def QObject.connect (c : Connection) (st : AppState) : AppState :=
  record (.connect c) { st with connections := st.connections ++ [c] }

/-- Modelled from the spec: `QCoreApplication::exit(returnCode)` (Qt library code, not
under src/) tells the running event loop to return
`returnCode`; it returns to its caller, and does nothing when no event loop is running. -/
def QCoreApplication.exit (returnCode : Int) (st : AppState) : AppState :=
  let st := record (.exit returnCode) st
  if st.inExec then { st with returnCode := some returnCode } else st

/-- The body of a connected callable: for the lambda of main.cpp line 22,
`QCoreApplication::exit(-1)`. -/
def Slot.run : Slot → AppState → AppState
  | .exitLambda, st => QCoreApplication.exit (-1) st

/-- Modelled from the spec: the invocation of a connected callable by the signal
dispatch of Qt (library code, not under src/). -/
def invoke (s : Slot) (st : AppState) : AppState :=
  s.run (record (.invoke s) st)

/-- Modelled from the spec: the delivery of an emitted signal along one connection (Qt
library code, not under src/): a queued connection posts the
invocation to the receiver's event queue, a direct one invokes the callable at once, and
an automatic one is direct because every object of the program lives in the main thread. -/
def deliver (c : Connection) (st : AppState) : AppState :=
  match c.type with
  | .QueuedConnection => { st with posted := st.posted ++ [c.slot] }
  | .DirectConnection => invoke c.slot st
  | .AutoConnection => invoke c.slot st

/-- Modelled from the spec: the emission of a signal (Qt library code, not under src/):
it is delivered along every matching connection, in connection order. -/
def emitSignal (sender : ObjectId) (s : Signal) (st : AppState) : AppState :=
  (st.connections.filter (fun c => c.sender = sender ∧ c.signal = s)).foldl
    (fun acc c => deliver c acc) (record (.emitSignal s) st)

/-- Performs a call on the worker; the value returned to the UI is `none` for the
operations declared `void`. -/
def WorkerCall.perform (c : WorkerCall) (self : CppWorker) (log : List DebugMessage) :
    Call (Option QString) :=
  match c with
  | .regularMethod =>
    let r := self.regularMethod log
    { ret := none, self := r.self, log := r.log }
  | .regularMethodWithReturn name age =>
    let r := self.regularMethodWithReturn log name age
    { ret := some r.ret, self := r.self, log := r.log }
  | .cppSlot =>
    let r := self.cppSlot log
    { ret := none, self := r.self, log := r.log }

/-- Performs a sequence of calls on the worker, in order; the result is the worker and
the log after the last call. -/
def runCalls : List WorkerCall → CppWorker → List DebugMessage → CppWorker × List DebugMessage
  | [], self, log => (self, log)
  | c :: rest, self, log =>
    let r := c.perform self log
    runCalls rest r.self r.log

/-- Modelled from the spec: a call from the UI on the context property `cppWorker` (the
QML engine and the QML file are not under src/): it reaches the worker when
that property refers to it; a returned value goes to the UI. -/
def callWorker (c : WorkerCall) (st : AppState) : AppState :=
  match QQmlContext.contextProperty "cppWorker" st, st.worker with
  | some (.object .cppWorker), some w =>
    let r := c.perform w st.log
    { st with worker := some r.self, log := r.log, replies := st.replies ++ r.ret.toList }
  | _, _ => st

/-- Modelled from the spec: `QQmlApplicationEngine::loadFromModule(uri, typeName)` (Qt
library code, not under src/): when the type can be
instantiated the root object is created (running the calls it makes on the worker) and
`objectCreated` is emitted; otherwise `objectCreationFailed` is emitted. -/
def QQmlApplicationEngine.loadFromModule (env : Env) (uri typeName : String)
    (st : AppState) : AppState :=
  let st := record (.loadFromModule uri typeName) st
  if env.canCreate uri typeName then
    let st := env.onLoad.foldl (fun acc c => callWorker c acc) st
    emitSignal .engine .objectCreated
      { st with rootObjects := st.rootObjects ++ [(uri, typeName)] }
  else
    emitSignal .engine .objectCreationFailed st

/-- Modelled from the spec: the effect of one event on the application (Qt library code,
not under src/). `QCoreApplication::quit()` is `exit(0)`. -/
def UiEvent.handle : UiEvent → AppState → AppState
  | .call c, st => callWorker c st
  | .elapse ms, st => { st with now := st.now + ms }
  | .quit, st => QCoreApplication.exit 0 st
  | .exit returnCode, st => QCoreApplication.exit returnCode st

/-- Modelled from the spec: `QCoreApplication::sendPostedEvents` (Qt library code, not
under src/) runs the posted slot invocations, oldest first. -/
def sendPostedEvents (st : AppState) : AppState :=
  st.posted.foldl (fun acc s => invoke s acc) { st with posted := [] }

/-- Modelled from the spec: the event loop of Qt (library code, not under src/): each
round runs the posted invocations, returns the return code if
`exit` was called, and otherwise handles the next event. The result is `none` when the
events are used up and `exit` was never called: the loop is still waiting. -/
def eventLoop : List UiEvent → AppState → Option Int × AppState
  | [], st =>
    let st := sendPostedEvents st
    match st.returnCode with
    | some code => (some code, { st with inExec := false })
    | none => (none, st)
  | e :: rest, st =>
    let st := sendPostedEvents st
    match st.returnCode with
    | some code => (some code, { st with inExec := false })
    | none => eventLoop rest (e.handle st)

/-- Modelled from the spec: `QGuiApplication::exec()` (Qt library code, not under src/)
enters the main event loop and returns the value passed
to `exit`. -/
def QGuiApplication.exec (events : List UiEvent) (st : AppState) : Option Int × AppState :=
  eventLoop events (record .exec { st with inExec := true, returnCode := none })

/-- Lines 10 to 23 of `main`: everything before the load. -/
def beforeLoad (env : Env) : AppState :=
  let st := QGuiApplication.ctor (AppState.initial env)
  let st := QQmlApplicationEngine.ctor st
  let st := constructWorker st
  let st := QQmlContext.setContextProperty "cppWorker" (.object .cppWorker) st
  let (now, st) := QDateTime.currentDateTime st
  let st := QQmlContext.setContextProperty "currentDateTime" (.dateTime now) st
  QObject.connect
    { sender := .engine, signal := .objectCreationFailed, context := .app,
      slot := .exitLambda, type := .QueuedConnection } st

/-- Line 24 of `main`: `engine.loadFromModule("ContextProperty", "Main");` -/
def afterLoad (env : Env) : AppState :=
  QQmlApplicationEngine.loadFromModule env "ContextProperty" "Main" (beforeLoad env)

/-- The function `int main(int argc, char *argv[])`: the value `app.exec()` returns (line
26), `none` while the event loop has not returned, with the final
state of the process. -/
def main (env : Env) : Option Int × AppState :=
  QGuiApplication.exec env.events (afterLoad env)

/-! ## What the event loop is asked to return -/

/-- The return code an event asks the event loop for, if it asks for one. -/
def UiEvent.exitRequest : UiEvent → Option Int
  | .quit => some 0
  | .exit returnCode => some returnCode
  | _ => none

/-- The return code of the first event that asks the event loop to return. -/
def firstExit : List UiEvent → Option Int
  | [] => none
  | e :: rest =>
    match e.exitRequest with
    | some code => some code
    | none => firstExit rest

/-! ## Reading a returned sentence back -/

/-- Removes a given ending from a string, `none` when the string does not end with it. -/
def stripSuffix (s ending : QString) : Option QString :=
  if s.drop (s.length - ending.length) = ending then
    some (s.take (s.length - ending.length))
  else none

/-- Splits a reversed text at its first `" :"` (code units 32, 58), which is the last
`": "` of the text itself: the result is what stands before it and what stands after
it, both still reversed. -/
def splitAtColon : QString → Option (QString × QString)
  | [] => none
  | c :: rest =>
    match rest with
    | [] => none
    | d :: rest2 =>
      if c = 32 ∧ d = 58 then some ([], rest2)
      else
        match splitAtColon rest with
        | some (a, b) => some (c :: a, b)
        | none => none

/-- Recovers the name and the age from a sentence: the sentence must end with
`" years old !"`; the age is what lies between the last `": "` and that ending, the name
is everything before that `": "`. -/
def decode (s : QString) : Option (QString × Int) :=
  match stripSuffix s (QString.fromLiteral " years old !") with
  | none => none
  | some body =>
    match splitAtColon body.reverse with
    | none => none
    | some (revNumber, revName) =>
      match parseInt revNumber.reverse with
      | some age => some (revName.reverse, age)
      | none => none

/-! ## Relations between states -/

/-- Two states agree on every component except the diagnostic log and the values
returned to the UI. -/
def AppState.sameButLog (a b : AppState) : Prop :=
  a.now = b.now ∧ a.clockReads = b.clockReads ∧ a.worker = b.worker
    ∧ a.context = b.context ∧ a.connections = b.connections
    ∧ a.rootObjects = b.rootObjects ∧ a.posted = b.posted ∧ a.inExec = b.inExec
    ∧ a.returnCode = b.returnCode ∧ a.trace = b.trace

/-- The connection `main` makes: the lambda of line 22 on `objectCreationFailed` of the
engine, with the application as context object, queued. -/
def failureConnection : Connection :=
  { sender := .engine, signal := .objectCreationFailed, context := .app,
    slot := .exitLambda, type := .QueuedConnection }

/-- The calls `main` has made when line 23 is done, for a clock that shows `t`. -/
def setupTrace (t : QDateTime) : List Action :=
  [.constructApp, .constructEngine, .constructWorker,
   .setContextProperty "cppWorker" (.object .cppWorker),
   .setContextProperty "currentDateTime" (.dateTime t),
   .connect failureConnection]

/-- State `a` is a later state of a run that went through state `b`: the clock has not
been read again, the root context and the connections are as they were, and the trace has
only grown. -/
def AppState.continues (a b : AppState) : Prop :=
  a.clockReads = b.clockReads ∧ a.context = b.context ∧ a.connections = b.connections
    ∧ ∃ rest, a.trace = b.trace ++ rest

/-! ## Environments used as concrete inputs -/

/-- An environment in which the QML type cannot be instantiated. -/
def failingEnv : Env :=
  { startTime := 1000, canCreate := fun _ _ => false, onLoad := [],
    events := [.call .regularMethod, .exit 7] }

/-- An environment in which the load succeeds and the UI calls the worker, lets time
pass and then quits. -/
def okEnv : Env :=
  { startTime := 1000, canCreate := fun _ _ => true, onLoad := [.cppSlot],
    events := [.call (.regularMethodWithReturn (QString.fromLiteral "Ada") 30),
               .elapse 5, .quit, .exit 7] }

/-! ## Theorems -/

/-! ### The digit loop -/

theorem numberLoop_acc (fuel : Nat) : ∀ (n : Nat) (acc : QString),
    QString.numberLoop fuel n acc = QString.numberLoop fuel n [] ++ acc := by
  induction fuel with
  | zero => intro n acc; simp [QString.numberLoop]
  | succ f ih =>
    intro n acc
    simp only [QString.numberLoop]
    by_cases h : n / 10 = 0
    · simp [h]
    · simp only [h, if_false]
      rw [ih (n / 10) ((48 + n % 10) :: acc), ih (n / 10) [48 + n % 10]]
      simp

theorem numberLoop_small (f n : Nat) (h : n < 10) :
    QString.numberLoop (f + 1) n [] = [48 + n] := by
  have h0 : n / 10 = 0 := by omega
  have h1 : n % 10 = n := by omega
  simp [QString.numberLoop, h0, h1]

theorem numberLoop_step (f n : Nat) (h : 10 ≤ n) :
    QString.numberLoop (f + 1) n [] = QString.numberLoop f (n / 10) [] ++ [48 + n % 10] := by
  have h0 : ¬ n / 10 = 0 := by omega
  simp only [QString.numberLoop, h0, if_false]
  exact numberLoop_acc f (n / 10) [48 + n % 10]

theorem numberLoop_ne_nil (f n : Nat) : QString.numberLoop (f + 1) n [] ≠ [] := by
  by_cases h : n < 10
  · simp [numberLoop_small f n h]
  · rw [numberLoop_step f n (by omega)]; simp

theorem numberLoop_digits (fuel : Nat) : ∀ n : Nat,
    ∀ c ∈ QString.numberLoop fuel n [], isDigit c := by
  induction fuel with
  | zero => intro n c hc; simp [QString.numberLoop] at hc
  | succ f ih =>
    intro n c hc
    by_cases h : n < 10
    · rw [numberLoop_small f n h] at hc
      simp at hc
      subst hc
      unfold isDigit; omega
    · rw [numberLoop_step f n (by omega)] at hc
      simp only [List.mem_append, List.mem_singleton] at hc
      rcases hc with hc | hc
      · exact ih (n / 10) c hc
      · subst hc
        unfold isDigit; omega

theorem numberLoop_head (fuel : Nat) : ∀ n : Nat, n < fuel →
    (QString.numberLoop fuel n []).head? = some 48 → n = 0 := by
  induction fuel with
  | zero => intro n hn; omega
  | succ f ih =>
    intro n hn hhead
    by_cases h : n < 10
    · rw [numberLoop_small f n h] at hhead
      simp at hhead
      omega
    · exfalso
      rw [numberLoop_step f n (by omega)] at hhead
      have hf : n / 10 < f := by omega
      obtain ⟨g, hg⟩ : ∃ g, f = g + 1 := ⟨f - 1, by omega⟩
      have hne : QString.numberLoop f (n / 10) [] ≠ [] := by
        rw [hg]; exact numberLoop_ne_nil g (n / 10)
      rw [List.head?_append_of_ne_nil _ hne] at hhead
      have := ih (n / 10) hf hhead
      omega

theorem parseDigits_append (xs : QString) : ∀ (v : Nat) (c : Nat),
    parseDigits (xs ++ [c]) v
      = (parseDigits xs v).bind (fun u => (digitValue c).map (fun d => 10 * u + d)) := by
  induction xs with
  | nil =>
    intro v c
    cases hd : digitValue c <;> simp [parseDigits, hd]
  | cons x xs ih =>
    intro v c
    cases hd : digitValue x with
    | none => simp [parseDigits, hd]
    | some d => simp [parseDigits, hd, ih]

theorem digitValue_digit (d : Nat) (h : d < 10) : digitValue (48 + d) = some d := by
  unfold digitValue
  have : 48 ≤ 48 + d ∧ 48 + d ≤ 57 := by omega
  simp [this]

theorem parseDigits_numberLoop (fuel : Nat) : ∀ n : Nat, n < fuel →
    parseDigits (QString.numberLoop fuel n []) 0 = some n := by
  induction fuel with
  | zero => intro n hn; omega
  | succ f ih =>
    intro n hn
    by_cases h : n < 10
    · rw [numberLoop_small f n h]
      simp [parseDigits, digitValue_digit n h]
    · rw [numberLoop_step f n (by omega), parseDigits_append,
        ih (n / 10) (by omega), digitValue_digit (n % 10) (by omega)]
      simp
      omega

theorem parseNat_numberLoop (n : Nat) :
    parseNat (QString.numberLoop (n + 1) n []) = some n := by
  have h := parseDigits_numberLoop (n + 1) n (by omega)
  cases hl : QString.numberLoop (n + 1) n [] with
  | nil => exact absurd hl (numberLoop_ne_nil n n)
  | cons c cs => rw [hl] at h; simpa [parseNat] using h

/-- Reading back what `QString::number` renders gives the number. -/
theorem parseInt_number (a : Int) : parseInt (QString.number a) = some a := by
  unfold QString.number
  by_cases h : a < 0
  · simp only [h, if_true, parseInt, parseNat_numberLoop, Int.ofNat_eq_coe,
      Int.ofNat_natAbs_of_nonpos (le_of_lt h), neg_neg]
  · simp only [h, if_false]
    cases hl : QString.numberLoop (a.natAbs + 1) a.natAbs [] with
    | nil => exact absurd hl (numberLoop_ne_nil _ _)
    | cons c cs =>
      have hc : isDigit c := numberLoop_digits _ _ c (by rw [hl]; simp)
      have hc45 : ¬ c = 45 := by unfold isDigit at hc; omega
      simp only [parseInt, hc45, if_false]
      rw [← hl, parseNat_numberLoop]
      simp only [Int.ofNat_eq_coe, Int.natAbs_of_nonneg (not_lt.mp h)]

theorem number_injective (a b : Int) (h : QString.number a = QString.number b) : a = b := by
  have ha := parseInt_number a
  rw [h, parseInt_number b] at ha
  exact (Option.some.inj ha).symm

/-! ### `QString::number` against the decimal notation of the Lean library -/

theorem digitChar_toNat (d : Nat) (h : d < 10) : (Nat.digitChar d).toNat = 48 + d := by
  interval_cases d <;> rfl

theorem toDigitsCore_toNat (fuel : Nat) : ∀ (n : Nat) (ds : List Char),
    (Nat.toDigitsCore 10 fuel n ds).map Char.toNat
      = QString.numberLoop fuel n (ds.map Char.toNat) := by
  induction fuel with
  | zero => intro n ds; simp [Nat.toDigitsCore, QString.numberLoop]
  | succ f ih =>
    intro n ds
    have hd : (Nat.digitChar (n % 10)).toNat = 48 + n % 10 :=
      digitChar_toNat (n % 10) (Nat.mod_lt n (by decide))
    simp only [Nat.toDigitsCore, QString.numberLoop]
    by_cases h : n / 10 = 0
    · simp [h, hd]
    · simp only [h, if_false]
      rw [ih (n / 10) (Nat.digitChar (n % 10) :: ds)]
      simp [hd]

theorem fromLiteral_repr (n : Nat) :
    QString.fromLiteral (Nat.repr n) = QString.numberLoop (n + 1) n [] := by
  have h := toDigitsCore_toNat (n + 1) n []
  simpa [QString.fromLiteral, Nat.repr, Nat.toDigits, List.asString] using h

/-- The rendering of `QString::number` is the decimal notation `toString` gives. -/
theorem number_eq_toString (a : Int) :
    QString.number a = QString.fromLiteral (toString a) := by
  cases a with
  | ofNat m =>
    have h : ¬ ((Int.ofNat m) < 0) := by simp
    have e : toString (Int.ofNat m) = Nat.repr m := rfl
    simp only [QString.number, h, if_false, e, fromLiteral_repr]
    rfl
  | negSucc m =>
    have h : (Int.negSucc m) < 0 := Int.negSucc_lt_zero m
    have e : toString (Int.negSucc m) = "-" ++ Nat.repr (m + 1) := rfl
    have e2 : QString.fromLiteral ("-" ++ Nat.repr (m + 1))
        = 45 :: QString.fromLiteral (Nat.repr (m + 1)) := by
      simp [QString.fromLiteral]
    simp only [QString.number, h, if_true, e, e2, fromLiteral_repr]
    rfl

/-! ### The sentence `regularMethodWithReturn` returns -/

theorem fromLiteral_colon : QString.fromLiteral ": " = [58, 32] := by decide

theorem fromLiteral_yearsOld :
    QString.fromLiteral " years old !"
      = [32, 121, 101, 97, 114, 115, 32, 111, 108, 100, 32, 33] := by decide

theorem ret_eq (self : CppWorker) (log : List DebugMessage) (name : QString) (age : Int) :
    (self.regularMethodWithReturn log name age).ret
      = name ++ [58, 32] ++ QString.number age ++ QString.fromLiteral " years old !" := by
  simp [CppWorker.regularMethodWithReturn, fromLiteral_colon]

theorem number_ne_nil (a : Int) : QString.number a ≠ [] := by
  unfold QString.number
  split
  · simp
  · exact numberLoop_ne_nil _ _

theorem number_units (a : Int) : ∀ c ∈ QString.number a, c = 45 ∨ isDigit c := by
  intro c hc
  unfold QString.number at hc
  split at hc
  · rcases List.mem_cons.mp hc with h | h
    · exact Or.inl h
    · exact Or.inr (numberLoop_digits _ _ c h)
  · exact Or.inr (numberLoop_digits _ _ c hc)

theorem number_no_space (a : Int) : ∀ c ∈ (QString.number a).reverse, c ≠ 32 := by
  intro c hc
  rcases number_units a c (List.mem_reverse.mp hc) with h | h
  · omega
  · unfold isDigit at h; omega

theorem splitAtColon_append (l : QString) (r : QString) (h : ∀ c ∈ l, c ≠ 32) :
    splitAtColon (l ++ 32 :: 58 :: r) = some (l, r) := by
  induction l with
  | nil => simp [splitAtColon]
  | cons c l ih =>
    have hc : c ≠ 32 := h c (List.mem_cons_self c l)
    have ih2 := ih (fun x hx => h x (List.mem_cons_of_mem c hx))
    cases l with
    | nil =>
      simp only [List.nil_append] at ih2
      simp only [List.cons_append, List.nil_append]
      rw [splitAtColon]
      simp [hc, ih2]
    | cons x l2 =>
      simp only [List.cons_append] at ih2
      simp only [List.cons_append]
      rw [splitAtColon]
      simp [hc, ih2]

theorem stripSuffix_append (body ending : QString) :
    stripSuffix (body ++ ending) ending = some body := by
  unfold stripSuffix
  have hl : (body ++ ending).length - ending.length = body.length := by
    simp
  rw [hl]
  simp

theorem decode_ret (self : CppWorker) (log : List DebugMessage) (name : QString) (age : Int) :
    decode (self.regularMethodWithReturn log name age).ret = some (name, age) := by
  rw [ret_eq]
  unfold decode
  rw [stripSuffix_append]
  have hrev : (name ++ [58, 32] ++ QString.number age).reverse
      = (QString.number age).reverse ++ 32 :: 58 :: name.reverse := by
    simp
  simp only [hrev, splitAtColon_append _ _ (number_no_space age), List.reverse_reverse,
    parseInt_number]

theorem runCalls_self (calls : List WorkerCall) : ∀ (self : CppWorker)
    (log : List DebugMessage), (runCalls calls self log).1 = self := by
  induction calls with
  | nil => intro self log; rfl
  | cons c rest ih =>
    intro self log
    simp only [runCalls]
    rw [ih]
    cases c <;> rfl

/-! ### The worker: claims C1, C2, C4, C5, C8, C10 -/

/-- C1: for every name and every age (every integer, so every 32-bit one),
`regularMethodWithReturn` returns exactly the name, then `": "`, then the age in decimal
notation (the notation `toString` gives), then `" years old !"`; the returned value is the
same whatever the receiver and the log are; and for the name `Ada` and the age 30 it is
`Ada: 30 years old !`. -/
theorem regularMethodWithReturn_sentence (self other : CppWorker)
    (log otherLog : List DebugMessage) (name : QString) (age : Int) :
    (self.regularMethodWithReturn log name age).ret
        = name ++ QString.fromLiteral ": " ++ QString.fromLiteral (toString age)
            ++ QString.fromLiteral " years old !"
      ∧ (other.regularMethodWithReturn otherLog name age).ret
          = (self.regularMethodWithReturn log name age).ret
      ∧ (self.regularMethodWithReturn log (QString.fromLiteral "Ada") 30).ret
          = QString.fromLiteral "Ada: 30 years old !" := by
  refine ⟨?_, rfl, ?_⟩
  · rw [← number_eq_toString]
    rfl
  · rw [ret_eq]
    decide

/-- C2: in the sentence `regularMethodWithReturn` returns, the age stands between `": "`
and `" years old !"` as a minus sign exactly when the age is negative, followed by a
non-empty run of the digits `0` to `9` that starts with `0` only when the age is 0 and
the run is the single digit `0`; reading that text back as a decimal integer gives the
age. This holds for every integer, so for 0, for the negative ones and for
-2147483648. -/
theorem regularMethodWithReturn_age_canonical (self : CppWorker) (log : List DebugMessage)
    (name : QString) (age : Int) :
    ∃ digits : QString,
      QString.number age = (if age < 0 then [45] else []) ++ digits
        ∧ (self.regularMethodWithReturn log name age).ret
            = name ++ QString.fromLiteral ": " ++ ((if age < 0 then [45] else []) ++ digits)
                ++ QString.fromLiteral " years old !"
        ∧ digits ≠ []
        ∧ (∀ c ∈ digits, isDigit c)
        ∧ (digits.head? = some 48 → age = 0 ∧ digits = [48])
        ∧ parseInt ((if age < 0 then [45] else []) ++ digits) = some age := by
  have hnum : QString.number age
      = (if age < 0 then [45] else []) ++ QString.numberLoop (age.natAbs + 1) age.natAbs [] := by
    unfold QString.number
    split <;> simp
  refine ⟨QString.numberLoop (age.natAbs + 1) age.natAbs [], hnum, ?_,
    numberLoop_ne_nil _ _, numberLoop_digits _ _, ?_, ?_⟩
  · rw [← hnum]; rfl
  · intro hhead
    have h0 : age.natAbs = 0 := numberLoop_head _ _ (Nat.lt_succ_self _) hhead
    have hage : age = 0 := Int.natAbs_eq_zero.mp h0
    subst hage
    exact ⟨rfl, rfl⟩
  · rw [← hnum]; exact parseInt_number age

/-- C4: for every worker and every log, `regularMethod` and `cppSlot` return the unit
value, leave the worker as it is and append exactly one message to the log, the fixed
text of the operation; the result type has no failure alternative. A call that comes
from the UI changes no component of the process state other than the log. -/
theorem zero_argument_operations (self : CppWorker) (log : List DebugMessage)
    (st : AppState) :
    self.regularMethod log
        = { ret := (), self := self,
            log := log ++ [[.literal "This is the C++ talking, regularMethod called !"]] }
      ∧ self.cppSlot log
        = { ret := (), self := self,
            log := log ++ [[.literal "This is C++ talking, cppSlot called !"]] }
      ∧ callWorker .regularMethod st
          = { st with log := (callWorker .regularMethod st).log }
      ∧ callWorker .cppSlot st = { st with log := (callWorker .cppSlot st).log } := by
  refine ⟨rfl, rfl, ?_, ?_⟩
  · unfold callWorker
    split
    · rename_i w _ hw
      simp [WorkerCall.perform, CppWorker.regularMethod, hw]
    · rfl
  · unfold callWorker
    split
    · rename_i w _ hw
      simp [WorkerCall.perform, CppWorker.cppSlot, hw]
    · rfl

/-- C5: `regularMethodWithReturn` accepts every name and every age: whatever they are,
the call returns a string that starts with the name unchanged, has the length of the
name plus the length of the rendered age plus 14, leaves the worker as it is and appends
one message to the log. In particular this holds for the empty name, for names that
contain `": "` or `" years old !"`, and for zero and negative ages. -/
theorem regularMethodWithReturn_accepts_all (self : CppWorker) (log : List DebugMessage)
    (name : QString) (age : Int) :
    ((self.regularMethodWithReturn log name age).ret).take name.length = name
      ∧ ((self.regularMethodWithReturn log name age).ret).length
          = name.length + (QString.number age).length + 14
      ∧ (self.regularMethodWithReturn log name age).self = self
      ∧ (self.regularMethodWithReturn log name age).log.length = log.length + 1
      ∧ (self.regularMethodWithReturn log [] 0).ret = QString.fromLiteral ": 0 years old !"
      ∧ (self.regularMethodWithReturn log (QString.fromLiteral "a: 1 years old !") (-5)).ret
          = QString.fromLiteral "a: 1 years old !: -5 years old !" := by
  refine ⟨?_, ?_, rfl, ?_, ?_, ?_⟩
  · rw [ret_eq]
    simp [List.append_assoc]
  · rw [ret_eq, fromLiteral_yearsOld]
    simp
    omega
  · simp [CppWorker.regularMethodWithReturn, qDebug]
  · rw [ret_eq]
    decide
  · rw [ret_eq]
    decide

/-- C8: each of the three operations returns the worker it was called on unchanged, so
after any sequence of calls the worker is the one the sequence started with, and
`regularMethodWithReturn` then returns what it returns on a freshly constructed worker
with an empty log. -/
theorem worker_stateless (calls : List WorkerCall) (self : CppWorker)
    (log : List DebugMessage) (name : QString) (age : Int) :
    (self.regularMethod log).self = self
      ∧ (self.regularMethodWithReturn log name age).self = self
      ∧ (self.cppSlot log).self = self
      ∧ (runCalls calls self log).1 = self
      ∧ ((runCalls calls self log).1.regularMethodWithReturn
            (runCalls calls self log).2 name age).ret
          = ((CppWorker.ctor none).regularMethodWithReturn [] name age).ret :=
  ⟨rfl, rfl, rfl, runCalls_self calls self log, rfl⟩

/-- C10: `regularMethodWithReturn` is injective in the pair of its arguments: two calls
that return the same sentence were given the same name and the same age, whatever the
names contain. -/
theorem regularMethodWithReturn_injective (self1 self2 : CppWorker)
    (log1 log2 : List DebugMessage) (name1 name2 : QString) (age1 age2 : Int)
    (h : (self1.regularMethodWithReturn log1 name1 age1).ret
          = (self2.regularMethodWithReturn log2 name2 age2).ret) :
    name1 = name2 ∧ age1 = age2 := by
  have h1 := decode_ret self1 log1 name1 age1
  rw [h, decode_ret self2 log2 name2 age2] at h1
  have h2 := Option.some.inj h1
  exact ⟨(congrArg Prod.fst h2).symm, (congrArg Prod.snd h2).symm⟩

/-- C10 at a concrete input: two workers with different logs that return the same
sentence for a name that itself contains `": "` and digits. -/
theorem regularMethodWithReturn_injective_witness :
    ((CppWorker.ctor none).regularMethodWithReturn []
          (QString.fromLiteral "a: 1 years old !") 30).ret
        = ((CppWorker.ctor (some .app)).regularMethodWithReturn [[]]
          (QString.fromLiteral "a: 1 years old !") 30).ret
      ∧ QString.fromLiteral "a: 1 years old !" = QString.fromLiteral "a: 1 years old !"
      ∧ (30 : Int) = 30 :=
  ⟨rfl, regularMethodWithReturn_injective (CppWorker.ctor none) (CppWorker.ctor (some .app))
    [] [[]] (QString.fromLiteral "a: 1 years old !") (QString.fromLiteral "a: 1 years old !")
    30 30 rfl⟩

/-! ### The framework operations -/

theorem sameButLog_refl (a : AppState) : a.sameButLog a :=
  ⟨rfl, rfl, rfl, rfl, rfl, rfl, rfl, rfl, rfl, rfl⟩

theorem sameButLog_trans (a b c : AppState) (h1 : a.sameButLog b) (h2 : b.sameButLog c) :
    a.sameButLog c := by
  obtain ⟨a1, a2, a3, a4, a5, a6, a7, a8, a9, a10⟩ := h1
  obtain ⟨b1, b2, b3, b4, b5, b6, b7, b8, b9, b10⟩ := h2
  exact ⟨a1.trans b1, a2.trans b2, a3.trans b3, a4.trans b4, a5.trans b5, a6.trans b6,
    a7.trans b7, a8.trans b8, a9.trans b9, a10.trans b10⟩

theorem callWorker_sameButLog (c : WorkerCall) (st : AppState) :
    (callWorker c st).sameButLog st := by
  unfold callWorker
  split
  · rename_i w _ hw
    refine ⟨rfl, rfl, ?_, rfl, rfl, rfl, rfl, rfl, rfl, rfl⟩
    rw [hw]
    cases c <;> rfl
  · exact sameButLog_refl st

theorem foldl_callWorker_sameButLog (calls : List WorkerCall) : ∀ st : AppState,
    (calls.foldl (fun acc c => callWorker c acc) st).sameButLog st := by
  induction calls with
  | nil => intro st; exact sameButLog_refl st
  | cons c rest ih =>
    intro st
    simp only [List.foldl_cons]
    exact sameButLog_trans _ _ _ (ih (callWorker c st)) (callWorker_sameButLog c st)

theorem beforeLoad_eq (env : Env) :
    beforeLoad env =
      { now := env.startTime, clockReads := 1, worker := some (CppWorker.ctor none),
        context := [("currentDateTime", .dateTime env.startTime),
                    ("cppWorker", .object .cppWorker)],
        connections := [failureConnection], rootObjects := [], posted := [],
        inExec := false, returnCode := none, log := [], replies := [],
        trace := setupTrace env.startTime } := by
  rfl

theorem afterLoad_failed (env : Env) (h : env.canCreate "ContextProperty" "Main" = false) :
    afterLoad env =
      { beforeLoad env with
        posted := [.exitLambda],
        trace := setupTrace env.startTime
          ++ [.loadFromModule "ContextProperty" "Main", .emitSignal .objectCreationFailed] } := by
  unfold afterLoad QQmlApplicationEngine.loadFromModule
  simp only [h]
  rfl

theorem emitSignal_objectCreated (st : AppState) (h : st.connections = [failureConnection]) :
    emitSignal .engine .objectCreated st = record (.emitSignal .objectCreated) st := by
  unfold emitSignal
  rw [h]
  rfl

theorem afterLoad_created (env : Env) (h : env.canCreate "ContextProperty" "Main" = true) :
    (afterLoad env).clockReads = 1
      ∧ (afterLoad env).context = (beforeLoad env).context
      ∧ (afterLoad env).connections = [failureConnection]
      ∧ (afterLoad env).posted = []
      ∧ (afterLoad env).trace = setupTrace env.startTime
          ++ [.loadFromModule "ContextProperty" "Main", .emitSignal .objectCreated] := by
  unfold afterLoad QQmlApplicationEngine.loadFromModule
  simp only [h, if_true]
  obtain ⟨_, f2, _, f4, f5, _, f7, _, _, f10⟩ :=
    foldl_callWorker_sameButLog env.onLoad
      (record (.loadFromModule "ContextProperty" "Main") (beforeLoad env))
  rw [emitSignal_objectCreated _ (by rw [f5]; rfl)]
  exact ⟨f2, f4, f5, f7,
    Eq.trans (congrArg (fun t => t ++ [Action.emitSignal Signal.objectCreated]) f10) rfl⟩

/-! ### The event loop -/

theorem sendPostedEvents_nil (st : AppState) (h : st.posted = []) :
    sendPostedEvents st = st := by
  unfold sendPostedEvents
  rw [h]
  cases st
  simp only [List.foldl_nil] at h ⊢
  rw [h]

theorem exit_returnCode (code : Int) (st : AppState) (h : st.inExec = true) :
    (QCoreApplication.exit code st).posted = st.posted
      ∧ (QCoreApplication.exit code st).inExec = true
      ∧ (QCoreApplication.exit code st).returnCode = some code := by
  simp [QCoreApplication.exit, record, h]

theorem handle_idle (e : UiEvent) (st : AppState) (hp : st.posted = [])
    (hx : st.inExec = true) (hr : st.returnCode = none) :
    (e.handle st).posted = [] ∧ (e.handle st).inExec = true
      ∧ (e.handle st).returnCode = e.exitRequest := by
  cases e with
  | call c =>
    obtain ⟨_, _, _, _, _, _, f7, f8, f9, _⟩ := callWorker_sameButLog c st
    exact ⟨f7.trans hp, f8.trans hx, f9.trans hr⟩
  | elapse ms => exact ⟨hp, hx, hr⟩
  | quit =>
    obtain ⟨h1, h2, h3⟩ := exit_returnCode 0 st hx
    exact ⟨h1.trans hp, h2, h3⟩
  | exit code =>
    obtain ⟨h1, h2, h3⟩ := exit_returnCode code st hx
    exact ⟨h1.trans hp, h2, h3⟩

/-- With nothing posted, the event loop returns the return code already requested, or
else the one the first requesting event asks for. -/
theorem eventLoop_idle (evs : List UiEvent) : ∀ st : AppState, st.posted = [] →
    st.inExec = true →
    (eventLoop evs st).1
      = (match st.returnCode with
         | some code => some code
         | none => firstExit evs) := by
  induction evs with
  | nil =>
    intro st hp _
    simp only [eventLoop, sendPostedEvents_nil st hp]
    cases hr : st.returnCode <;> simp [firstExit]
  | cons e rest ih =>
    intro st hp hx
    simp only [eventLoop, sendPostedEvents_nil st hp]
    cases hr : st.returnCode with
    | some code => simp
    | none =>
      obtain ⟨h1, h2, h3⟩ := handle_idle e st hp hx hr
      simp only [ih (e.handle st) h1 h2, h3, firstExit]

theorem firstExit_append (pre post : List UiEvent) (e : UiEvent)
    (h : ∀ x ∈ pre, x.exitRequest = none) :
    firstExit (pre ++ e :: post)
      = (match e.exitRequest with
         | some code => some code
         | none => firstExit post) := by
  induction pre with
  | nil => rfl
  | cons x xs ih =>
    have hx : x.exitRequest = none := h x (List.mem_cons_self x xs)
    simp only [List.cons_append, firstExit, hx]
    exact ih (fun y hy => h y (List.mem_cons_of_mem x hy))

theorem main_failed (env : Env) (h : env.canCreate "ContextProperty" "Main" = false) :
    main env =
      (some (-1),
        { beforeLoad env with
          posted := [], inExec := false, returnCode := some (-1),
          trace := setupTrace env.startTime
            ++ [.loadFromModule "ContextProperty" "Main",
                .emitSignal .objectCreationFailed, .exec, .invoke .exitLambda,
                .exit (-1)] }) := by
  unfold main
  rw [afterLoad_failed env h]
  cases env.events <;> rfl

theorem main_created (env : Env) (h : env.canCreate "ContextProperty" "Main" = true) :
    (main env).1 = firstExit env.events := by
  have hp : (afterLoad env).posted = [] := (afterLoad_created env h).2.2.2.1
  exact eventLoop_idle env.events
    (record .exec { afterLoad env with inExec := true, returnCode := none }) hp rfl

/-! ### What a run keeps from the set-up -/

theorem continues_refl (a : AppState) : a.continues a :=
  ⟨rfl, rfl, rfl, [], (List.append_nil _).symm⟩

theorem continues_trans (a b c : AppState) (h1 : a.continues b) (h2 : b.continues c) :
    a.continues c := by
  obtain ⟨a1, a2, a3, r1, a4⟩ := h1
  obtain ⟨b1, b2, b3, r2, b4⟩ := h2
  refine ⟨a1.trans b1, a2.trans b2, a3.trans b3, r2 ++ r1, ?_⟩
  rw [a4, b4, List.append_assoc]

theorem record_continues (a : Action) (st : AppState) : (record a st).continues st :=
  ⟨rfl, rfl, rfl, [a], rfl⟩

theorem exit_continues (code : Int) (st : AppState) :
    (QCoreApplication.exit code st).continues st := by
  unfold QCoreApplication.exit
  by_cases h : st.inExec = true
  · simp only [record, h, if_true]
    exact ⟨rfl, rfl, rfl, [.exit code], rfl⟩
  · simp only [record, h, if_false]
    exact ⟨rfl, rfl, rfl, [.exit code], rfl⟩

theorem invoke_continues (s : Slot) (st : AppState) : (invoke s st).continues st := by
  cases s
  exact continues_trans _ _ _ (exit_continues (-1) (record (.invoke .exitLambda) st))
    (record_continues _ st)

theorem foldl_invoke_continues (l : List Slot) : ∀ st : AppState,
    (l.foldl (fun acc s => invoke s acc) st).continues st := by
  induction l with
  | nil => intro st; exact continues_refl st
  | cons s rest ih =>
    intro st
    simp only [List.foldl_cons]
    exact continues_trans _ _ _ (ih (invoke s st)) (invoke_continues s st)

theorem sendPostedEvents_continues (st : AppState) : (sendPostedEvents st).continues st := by
  unfold sendPostedEvents
  exact continues_trans _ _ _ (foldl_invoke_continues st.posted { st with posted := [] })
    ⟨rfl, rfl, rfl, [], (List.append_nil _).symm⟩

theorem callWorker_continues (c : WorkerCall) (st : AppState) :
    (callWorker c st).continues st := by
  obtain ⟨_, f2, _, f4, f5, _, _, _, _, f10⟩ := callWorker_sameButLog c st
  exact ⟨f2, f4, f5, [], by rw [f10, List.append_nil]⟩

theorem handle_continues (e : UiEvent) (st : AppState) : (e.handle st).continues st := by
  cases e with
  | call c => exact callWorker_continues c st
  | elapse ms => exact ⟨rfl, rfl, rfl, [], (List.append_nil _).symm⟩
  | quit => exact exit_continues 0 st
  | exit code => exact exit_continues code st

theorem eventLoop_continues (evs : List UiEvent) : ∀ st : AppState,
    (eventLoop evs st).2.continues st := by
  induction evs with
  | nil =>
    intro st
    simp only [eventLoop]
    split
    · exact continues_trans _ _ _ ⟨rfl, rfl, rfl, [], (List.append_nil _).symm⟩
        (sendPostedEvents_continues st)
    · exact sendPostedEvents_continues st
  | cons e rest ih =>
    intro st
    simp only [eventLoop]
    split
    · exact continues_trans _ _ _ ⟨rfl, rfl, rfl, [], (List.append_nil _).symm⟩
        (sendPostedEvents_continues st)
    · exact continues_trans _ _ _ (ih _)
        (continues_trans _ _ _ (handle_continues e _) (sendPostedEvents_continues st))

theorem exec_continues (evs : List UiEvent) (st : AppState) :
    (QGuiApplication.exec evs st).2.clockReads = st.clockReads
      ∧ (QGuiApplication.exec evs st).2.context = st.context
      ∧ ∃ rest, (QGuiApplication.exec evs st).2.trace = st.trace ++ Action.exec :: rest := by
  unfold QGuiApplication.exec
  obtain ⟨h1, h2, _, rest, h4⟩ :=
    eventLoop_continues evs (record .exec { st with inExec := true, returnCode := none })
  refine ⟨h1, h2, rest, ?_⟩
  rw [h4]
  simp [record]

theorem afterLoad_continues (env : Env) :
    (afterLoad env).clockReads = 1 ∧ (afterLoad env).context = (beforeLoad env).context := by
  cases h : env.canCreate "ContextProperty" "Main" with
  | false => rw [afterLoad_failed env h]; exact ⟨rfl, rfl⟩
  | true => exact ⟨(afterLoad_created env h).1, (afterLoad_created env h).2.1⟩

theorem afterLoad_trace (env : Env) :
    (afterLoad env).trace = setupTrace env.startTime
      ++ [.loadFromModule "ContextProperty" "Main",
          .emitSignal (if env.canCreate "ContextProperty" "Main" = true then .objectCreated
            else .objectCreationFailed)] := by
  cases h : env.canCreate "ContextProperty" "Main" with
  | false => rw [afterLoad_failed env h]; rfl
  | true => rw [(afterLoad_created env h).2.2.2.2]; rfl

/-! ### How often the failure handler runs -/

theorem handle_trace (e : UiEvent) (st : AppState) :
    (e.handle st).posted = st.posted
      ∧ ∀ a ∈ (e.handle st).trace, a ∈ st.trace ∨ ∃ code, a = Action.exit code := by
  cases e with
  | call c =>
    obtain ⟨_, _, _, _, _, _, f7, _, _, f10⟩ := callWorker_sameButLog c st
    exact ⟨f7, fun a ha => Or.inl (by rw [UiEvent.handle, f10] at ha; exact ha)⟩
  | elapse ms => exact ⟨rfl, fun a ha => Or.inl ha⟩
  | quit =>
    refine ⟨by simp only [UiEvent.handle, QCoreApplication.exit, record]; split <;> rfl, ?_⟩
    intro a ha
    have ht : (UiEvent.quit.handle st).trace = st.trace ++ [.exit 0] := by
      simp only [UiEvent.handle, QCoreApplication.exit, record]; split <;> rfl
    rw [ht] at ha
    rcases List.mem_append.mp ha with h | h
    · exact Or.inl h
    · exact Or.inr ⟨0, List.mem_singleton.mp h⟩
  | exit code =>
    refine ⟨by simp only [UiEvent.handle, QCoreApplication.exit, record]; split <;> rfl, ?_⟩
    intro a ha
    have ht : ((UiEvent.exit code).handle st).trace = st.trace ++ [.exit code] := by
      simp only [UiEvent.handle, QCoreApplication.exit, record]; split <;> rfl
    rw [ht] at ha
    rcases List.mem_append.mp ha with h | h
    · exact Or.inl h
    · exact Or.inr ⟨code, List.mem_singleton.mp h⟩

theorem eventLoop_idle_trace (evs : List UiEvent) : ∀ st : AppState, st.posted = [] →
    ∀ a ∈ (eventLoop evs st).2.trace, a ∈ st.trace ∨ ∃ code, a = Action.exit code := by
  induction evs with
  | nil =>
    intro st hp a ha
    simp only [eventLoop, sendPostedEvents_nil st hp] at ha
    split at ha <;> exact Or.inl ha
  | cons e rest ih =>
    intro st hp a ha
    simp only [eventLoop, sendPostedEvents_nil st hp] at ha
    split at ha
    · exact Or.inl ha
    · obtain ⟨h1, h2⟩ := handle_trace e st
      rcases ih (e.handle st) (h1.trans hp) a ha with h | h
      · exact h2 a h
      · exact Or.inr h

theorem handler_runs_at_most_once (env : Env) :
    (main env).2.trace.count (Action.invoke .exitLambda) ≤ 1 := by
  cases h : env.canCreate "ContextProperty" "Main" with
  | false =>
    rw [main_failed env h]
    simp [setupTrace, List.count_cons]
  | true =>
    have hnot : Action.invoke .exitLambda ∉ (main env).2.trace := by
      intro hmem
      have hp : (afterLoad env).posted = [] := (afterLoad_created env h).2.2.2.1
      rcases eventLoop_idle_trace env.events
          (record .exec { afterLoad env with inExec := true, returnCode := none }) hp _ hmem
        with h1 | ⟨code, h1⟩
      · have ht : (record Action.exec
            { afterLoad env with inExec := true, returnCode := none }).trace
              = (afterLoad env).trace ++ [.exec] := rfl
        rw [ht, (afterLoad_created env h).2.2.2.2] at h1
        simp [setupTrace] at h1
      · exact Action.noConfusion h1
    rw [List.count_eq_zero.mpr hnot]
    exact Nat.zero_le 1

theorem main_connections (env : Env) :
    (main env).2.connections = [failureConnection] := by
  have hc : (afterLoad env).connections = [failureConnection] := by
    cases h : env.canCreate "ContextProperty" "Main" with
    | false => rw [afterLoad_failed env h]; rfl
    | true => exact (afterLoad_created env h).2.2.1
  obtain ⟨_, _, h3, _⟩ := eventLoop_continues env.events
    (record .exec { afterLoad env with inExec := true, returnCode := none })
  exact h3.trans hc

/-! ### The exit status of `main`: claims C3 and C9 -/

/-- C3: when the QML type `Main` of the module `ContextProperty` cannot be created, `main`
returns -1, whatever events arrive. When it can be created, `main` returns the value the
event loop returns, which is the return code the first event that ends the loop asks for:
0 when that event is `quit`. -/
theorem main_exit_status (env : Env) :
    (main env).1 = (QGuiApplication.exec env.events (afterLoad env)).1
      ∧ (env.canCreate "ContextProperty" "Main" = false → (main env).1 = some (-1))
      ∧ (env.canCreate "ContextProperty" "Main" = true →
          (main env).1 = firstExit env.events)
      ∧ (env.canCreate "ContextProperty" "Main" = true →
          ∀ pre post : List UiEvent, env.events = pre ++ UiEvent.quit :: post →
            (∀ e ∈ pre, e.exitRequest = none) → (main env).1 = some 0) := by
  refine ⟨rfl, ?_, main_created env, ?_⟩
  · intro h
    rw [main_failed env h]
  · intro h pre post hev hpre
    rw [main_created env h, hev, firstExit_append pre post UiEvent.quit hpre]
    rfl

/-- C3 at concrete inputs: a run in which the load fails returns -1 although an event asks
for 7, and a run in which the load succeeds and the UI quits returns 0. -/
theorem main_exit_status_witness :
    failingEnv.canCreate "ContextProperty" "Main" = false
      ∧ (main failingEnv).1 = some (-1)
      ∧ okEnv.canCreate "ContextProperty" "Main" = true
      ∧ (main okEnv).1 = some 0 :=
  ⟨rfl, (main_exit_status failingEnv).2.1 rfl, rfl,
    (main_exit_status okEnv).2.2.2 rfl
      [.call (.regularMethodWithReturn (QString.fromLiteral "Ada") 30), .elapse 5]
      [.exit 7] rfl (by decide)⟩

/-- C9: when the load fails, the handler does not run during the load: after the load no
return code is set, no event loop is running, the invocation of the handler is in the
queue of posted events, and the trace shows neither the invocation nor a call of `exit`.
`main` goes on to `exec`; the handler is invoked there, calls `exit(-1)`, and -1 is the
value `exec`, and so `main`, returns. -/
theorem failure_handler_deferred (env : Env)
    (h : env.canCreate "ContextProperty" "Main" = false) :
    (afterLoad env).returnCode = none
      ∧ (afterLoad env).inExec = false
      ∧ (afterLoad env).posted = [Slot.exitLambda]
      ∧ (afterLoad env).trace = setupTrace env.startTime
          ++ [.loadFromModule "ContextProperty" "Main", .emitSignal .objectCreationFailed]
      ∧ (main env).2.trace = (afterLoad env).trace
          ++ [.exec, .invoke .exitLambda, .exit (-1)]
      ∧ (main env).1 = some (-1)
      ∧ (QGuiApplication.exec env.events (afterLoad env)).1 = some (-1) := by
  have hm := main_failed env h
  have ha := afterLoad_failed env h
  refine ⟨?_, ?_, ?_, ?_, ?_, ?_, ?_⟩
  · rw [ha]; rfl
  · rw [ha]; rfl
  · rw [ha]
  · rw [ha]
  · rw [hm, ha]; rfl
  · rw [hm]
  · exact (congrArg Prod.fst hm)

/-- C9 at a concrete input: the failing load of `failingEnv`. -/
theorem failure_handler_deferred_witness :
    failingEnv.canCreate "ContextProperty" "Main" = false
      ∧ (afterLoad failingEnv).returnCode = none
      ∧ (afterLoad failingEnv).posted = [Slot.exitLambda]
      ∧ (main failingEnv).1 = some (-1) :=
  ⟨rfl, (failure_handler_deferred failingEnv rfl).1,
    (failure_handler_deferred failingEnv rfl).2.2.1,
    (failure_handler_deferred failingEnv rfl).2.2.2.2.2.1⟩

/-! ### The steps of `main` and the published timestamp: claims C6 and C7 -/

/-- C6, as amended: in every run, whatever the environment, `main` makes the same calls in
the same order up to the load: it constructs the application and the engine, constructs
the worker, publishes the worker as `cppWorker` and the timestamp as `currentDateTime` in
the root context, connects the handler that calls `exit(-1)` to `objectCreationFailed` by
a queued connection, and loads `Main` of `ContextProperty`. When the load begins both
properties are published and the connection is in place. The load is followed by `exec`.
The connection is a persistent one: it is still registered when the run ends; the handler
is invoked at most once in a run because the one load emits the signal at most once. -/
theorem main_steps (env : Env) :
    (beforeLoad env).trace =
        [.constructApp, .constructEngine, .constructWorker,
         .setContextProperty "cppWorker" (.object .cppWorker),
         .setContextProperty "currentDateTime" (.dateTime env.startTime),
         .connect { sender := .engine, signal := .objectCreationFailed, context := .app,
                    slot := .exitLambda, type := .QueuedConnection }]
      ∧ (beforeLoad env).worker = some (CppWorker.ctor none)
      ∧ QQmlContext.contextProperty "cppWorker" (beforeLoad env) = some (.object .cppWorker)
      ∧ QQmlContext.contextProperty "currentDateTime" (beforeLoad env)
          = some (.dateTime env.startTime)
      ∧ (beforeLoad env).connections =
          [{ sender := .engine, signal := .objectCreationFailed, context := .app,
             slot := .exitLambda, type := .QueuedConnection }]
      ∧ Slot.run .exitLambda = QCoreApplication.exit (-1)
      ∧ (afterLoad env).trace = (beforeLoad env).trace
          ++ [.loadFromModule "ContextProperty" "Main",
              .emitSignal (if env.canCreate "ContextProperty" "Main" = true
                then .objectCreated else .objectCreationFailed)]
      ∧ (∃ rest, (main env).2.trace = (afterLoad env).trace ++ Action.exec :: rest)
      ∧ (main env).2.trace.count (Action.invoke .exitLambda) ≤ 1
      ∧ (main env).2.connections =
          [{ sender := .engine, signal := .objectCreationFailed, context := .app,
             slot := .exitLambda, type := .QueuedConnection }] := by
  refine ⟨rfl, rfl, rfl, rfl, rfl, ?_, afterLoad_trace env,
    (exec_continues env.events (afterLoad env)).2.2, handler_runs_at_most_once env,
    main_connections env⟩
  funext st
  rfl

/-- C6, the claim as worded fails: the handler `main` registers is not a one-shot one. In
the run of `failingEnv` the handler has run and its connection is still registered when
`main` returns; and when `objectCreationFailed` is emitted a second time after the failed
load, the handler is posted twice and the event loop invokes it twice. -/
theorem failure_handler_not_one_shot :
    (main failingEnv).2.trace.count (Action.invoke .exitLambda) = 1
      ∧ failureConnection ∈ (main failingEnv).2.connections
      ∧ (emitSignal .engine .objectCreationFailed (afterLoad failingEnv)).posted
          = [Slot.exitLambda, Slot.exitLambda]
      ∧ (QGuiApplication.exec []
            (emitSignal .engine .objectCreationFailed (afterLoad failingEnv))).2.trace.count
          (Action.invoke .exitLambda) = 2 := by
  decide

/-- C7: the clock is read once, before the load, and the value read is what is published
as `currentDateTime`. In the state after the load and after any events handled by the
event loop (calls on the worker, time passing, requests to end the loop) the clock has
still been read once and `currentDateTime` is still the value read at start-up, while the
clock itself has moved on by the time that passed. -/
theorem currentDateTime_fixed (env : Env) (evs : List UiEvent) :
    (beforeLoad env).clockReads = 1
      ∧ QQmlContext.contextProperty "currentDateTime" (beforeLoad env)
          = some (.dateTime env.startTime)
      ∧ (afterLoad env).clockReads = 1
      ∧ QQmlContext.contextProperty "currentDateTime" (afterLoad env)
          = some (.dateTime env.startTime)
      ∧ (QGuiApplication.exec evs (afterLoad env)).2.clockReads = 1
      ∧ QQmlContext.contextProperty "currentDateTime"
            (QGuiApplication.exec evs (afterLoad env)).2
          = some (.dateTime env.startTime)
      ∧ (main okEnv).2.now = okEnv.startTime + 5 := by
  obtain ⟨a1, a2⟩ := afterLoad_continues env
  obtain ⟨e1, e2, _⟩ := exec_continues evs (afterLoad env)
  refine ⟨rfl, rfl, a1, ?_, e1.trans a1, ?_, by decide⟩
  · unfold QQmlContext.contextProperty
    rw [a2]
    rfl
  · unfold QQmlContext.contextProperty
    rw [e2, a2]
    rfl

/-! ### The model on concrete inputs -/

theorem number_minimum : QString.number (-2147483648) = QString.fromLiteral "-2147483648" := by
  decide

theorem number_maximum : QString.number 2147483647 = QString.fromLiteral "2147483647" := by
  decide

theorem number_zero : QString.number 0 = QString.fromLiteral "0" := by decide

theorem decode_last_colon :
    decode (QString.fromLiteral "a: 1: -12 years old !")
      = some (QString.fromLiteral "a: 1", -12) := by decide

theorem okEnv_replies :
    (main okEnv).2.replies = [QString.fromLiteral "Ada: 30 years old !"] := by decide

theorem okEnv_log :
    (main okEnv).2.log =
      [[.literal "This is C++ talking, cppSlot called !"],
       [.literal "This is the C++ talking, regularMethodWithReturn with name: ",
        .qstring (QString.fromLiteral "Ada"), .literal " and age: ", .integer 30]] := by
  decide

/-- With a direct connection in place of the queued one the handler runs during the
load, where `exit` has no effect because no event loop is running, and the event loop
that is then entered is never told to return. -/
theorem direct_connection_never_returns :
    (QGuiApplication.exec []
        (QQmlApplicationEngine.loadFromModule failingEnv "ContextProperty" "Main"
          (QObject.connect
            { sender := .engine, signal := .objectCreationFailed, context := .app,
              slot := .exitLambda, type := .DirectConnection }
            (AppState.initial failingEnv)))).1 = none := by
  decide

end ContextProperty
